import Mathlib

/-!
Verification development for the Flipkart product-recommender repository.

The definitions below shallowly embed the Python source:
  - `src/flipkart/data_converter.py` (`DataConverter.convert`)
  - `src/flipkart/data_ingestion.py` (`DataIngestor._validate_config`, `DataIngestor.ingest`)
  - `src/flipkart/rag_chain.py` (`RAGChainBuilder._get_history`, `RAGChainBuilder.build_chain`)
  - `src/app.py` (`get_response`)
Parts of the conversational orchestration that live in the external langchain
library (query reformulation, the per-request pipeline of
`RunnableWithMessageHistory`) are modelled from the specification, and each
such definition says so in its doc comment.
-/

/-- Embedding of Python `str.strip()`: remove leading and trailing whitespace
characters from a string (`data_converter.py` uses `.strip()` on review and
product-title fields). -/
def pyStrip (s : String) : String :=
  String.mk (((s.toList.dropWhile Char.isWhitespace).reverse.dropWhile
    Char.isWhitespace).reverse)

/-- A LangChain `Document`: page content plus a string-to-string metadata map
(embedded as an association list). -/
structure Document where
  page_content : String
  metadata : List (String × String)
deriving DecidableEq, Repr

/-- One CSV row of `flipkart_product_review.csv` as seen by
`DataConverter.convert` after column selection: the `product_title` and
`review` cells, each possibly null (pandas `NaN`). -/
structure CsvRow where
  product_title : Option String
  review : Option String
deriving DecidableEq, Repr

/-- Embedding of `df.dropna(subset=["review", "product_title"])` in
`DataConverter.convert`: keep only rows where both cells are present. -/
def dropna (rows : List CsvRow) : List (String × String) :=
  rows.filterMap fun r =>
    match r.product_title, r.review with
    | some t, some v => some (t, v)
    | _, _ => none

/-- Embedding of `DataConverter.convert` (src/flipkart/data_converter.py,
lines 59-79): drop null rows, drop rows whose stripped review is empty, then
build one Document per remaining row whose stripped review is longer than 10
characters, with stripped review text as content and product name plus
provenance tag as metadata. -/
def DataConverter.convert (rows : List CsvRow) : List Document :=
  let df := (dropna rows).filter fun p => pyStrip p.2 ≠ ""
  (df.filter fun p => 10 < (pyStrip p.2).length).map fun p =>
    { page_content := pyStrip p.2
      metadata := [("product_name", pyStrip p.1), ("source", "flipkart_reviews")] }

/-- The environment-derived part of `Config` (src/flipkart/config.py):
each required AstraDB variable is present (`some`) or absent (`none`,
what `os.getenv` returns for an unset variable). -/
structure ConfigEnv where
  astra_db_api_endpoint : Option String
  astra_db_application_token : Option String
  astra_db_keyspace : Option String
deriving DecidableEq, Repr

/-- Embedding of the `required_vars` list in `DataIngestor._validate_config`
(src/flipkart/data_ingestion.py, lines 99-103). -/
def requiredVars (c : ConfigEnv) : List (String × Option String) :=
  [("ASTRA_DB_API_ENDPOINT", c.astra_db_api_endpoint),
   ("ASTRA_DB_APPLICATION_TOKEN", c.astra_db_application_token),
   ("ASTRA_DB_KEYSPACE", c.astra_db_keyspace)]

/-- Embedding of the `missing_vars` comprehension in
`DataIngestor._validate_config` (line 106): the names of required variables
whose value is `None`. -/
def missingVars (c : ConfigEnv) : List String :=
  ((requiredVars c).filter fun p => p.2.isNone).map Prod.fst

/-- Embedding of `DataIngestor._validate_config` (lines 88-109): raise
`ValueError` listing the missing variables when any is absent, otherwise
return normally. -/
def validateConfig (c : ConfigEnv) : Except String Unit :=
  if missingVars c ≠ [] then
    Except.error ("Missing required environment variables: "
      ++ String.intercalate ", " (missingVars c))
  else
    Except.ok ()

/-- The `batch_size = 50` constant of `DataIngestor.ingest` (line 167). -/
def batchSize : Nat := 50

/-- The vector store's `add_documents` as it affects the stored document
sequence: the batch is appended to the store's contents. -/
def add_documents (vstore batch : List Document) : List Document :=
  vstore ++ batch

/-- Embedding of the batching loop of `DataIngestor.ingest`
(lines 170-176): `for i in range(0, total_docs, batch_size)` takes the slice
`docs[i:i+batch_size]` and passes it to `add_documents`; state-passing
recursion over the remaining documents replaces the index loop. -/
def ingestLoop (vstore docs : List Document) : List Document :=
  if h : docs = [] then vstore
  else ingestLoop (add_documents vstore (docs.take batchSize)) (docs.drop batchSize)
termination_by docs.length
decreasing_by
  simp only [List.length_drop, batchSize]
  have : 0 < docs.length := List.length_pos.mpr h
  omega

/-- The sequence of batches the loop of `DataIngestor.ingest` passes to
`add_documents`, in order. -/
def ingestChunks (docs : List Document) : List (List Document) :=
  if h : docs = [] then []
  else docs.take batchSize :: ingestChunks (docs.drop batchSize)
termination_by docs.length
decreasing_by
  simp only [List.length_drop, batchSize]
  have : 0 < docs.length := List.length_pos.mpr h
  omega

/-- One conversation turn: a human utterance paired with the assistant's
answer (the pair of messages `RunnableWithMessageHistory` appends to a
`ChatMessageHistory` after a successful run). -/
structure Turn where
  human : String
  assistant : String
deriving DecidableEq, Repr

/-- First-match lookup in an association list, embedding a Python `dict`
membership test and subscript on `self.history_store`. -/
def lookupKey : List (String × Nat) → String → Option Nat
  | [], _ => none
  | (k, v) :: rest, key => if key = k then some v else lookupKey rest key

/-- The session-history state of a `RAGChainBuilder`: `self.history_store`
maps session ids to `ChatMessageHistory` object references, and `heap` gives
each reference's current message list.  Modelling references explicitly keeps
Python object identity observable: two keys bound to the same reference would
alias. -/
structure Store where
  keyToRef : List (String × Nat)
  heap : List (List Turn)
deriving DecidableEq, Repr

/-- The turn list currently held by reference `r`. -/
def readRef (st : Store) (r : Nat) : List Turn :=
  st.heap.getD r []

/-- Overwrite the turn list held by reference `r` (a mutation of the
`ChatMessageHistory` object itself, visible to every holder of `r`). -/
def writeRef (st : Store) (r : Nat) (ts : List Turn) : Store :=
  ⟨st.keyToRef, st.heap.set r ts⟩

/-- Embedding of `RAGChainBuilder._get_history` (src/flipkart/rag_chain.py,
lines 59-75): if `session_id` is not a key of `self.history_store`, bind it to
a fresh, empty `ChatMessageHistory`; then return the stored object (here, its
reference) for the key. -/
def RAGChainBuilder.get_history (st : Store) (session_id : String) : Store × Nat :=
  match lookupKey st.keyToRef session_id with
  | some r => (st, r)
  | none =>
    (⟨st.keyToRef ++ [(session_id, st.heap.length)], st.heap ++ [[]]⟩, st.heap.length)

/-- The turn sequence of the session stored under `sid` (empty when no
session exists for the key yet). -/
def sessionTurns (st : Store) (sid : String) : List Turn :=
  match lookupKey st.keyToRef sid with
  | some r => readRef st r
  | none => []

/-- Whether a session object exists for the key. -/
def hasSession (st : Store) (sid : String) : Bool :=
  (lookupKey st.keyToRef sid).isSome

/-- Append one turn to the session of `sid` through the reference returned by
`RAGChainBuilder.get_history`, creating the session first when absent (the
`add_user_message` / `add_ai_message` mutation on the shared history object). -/
def appendTurn (st : Store) (sid : String) (t : Turn) : Store :=
  let res := RAGChainBuilder.get_history st sid
  writeRef res.1 res.2 (readRef res.1 res.2 ++ [t])

/-- Well-formedness of a `Store`: every reference bound in `keyToRef` points
into the heap, and no two distinct keys alias the same history object.  Both
hold for every store reachable from the empty one. -/
def WFStore (st : Store) : Prop :=
  (∀ k r, lookupKey st.keyToRef k = some r → r < st.heap.length) ∧
  (∀ k₁ k₂ r₁ r₂, lookupKey st.keyToRef k₁ = some r₁ →
    lookupKey st.keyToRef k₂ = some r₂ → r₁ = r₂ → k₁ = k₂)

/-- The retriever's fixed `k`, configured once in `RAGChainBuilder.build_chain`
(src/flipkart/rag_chain.py, line 94: `search_kwargs = \x7b"k": 5\x7d`) and
never varied per call. -/
def retrieverK : Nat := 5

/-- Modelled from the spec: the vector index's similarity search is out of
scope (`AstraDBVectorStore` is external); per the spec the retriever adapter
ranks the indexed documents by relevance score descending and returns the top
`retrieverK` of them. -/
def retrieve (scored : List (Document × Int)) : List (Document × Int) :=
  (scored.insertionSort fun a b => b.2 ≤ a.2).take retrieverK

/-- Modelled from the spec: the context assembler (langchain's
`create_stuff_documents_chain`, external) concatenates the retrieved
documents' contents in order with a fixed separator. -/
def assemble (docs : List Document) : String :=
  String.intercalate "\n\n" (docs.map Document.page_content)

/-- Modelled from the spec: the query reformulator built by langchain's
`create_history_aware_retriever` (external; wired in
src/flipkart/rag_chain.py, lines 125-127).  With no prior turns the user
input is passed through as the standalone query; otherwise the generative
model rewrites it using the history. -/
def reformulate (llm : List Turn → String → Except String String)
    (history : List Turn) (user_input : String) : Except String String :=
  if history.isEmpty then Except.ok user_input else llm history user_input

/-- The external model and index services consumed by one built RAG chain:
the reformulation model, the vector index search, and the answer generator.
Each may fail, modelling a raised exception. -/
structure Pipeline where
  llm : List Turn → String → Except String String
  search : String → Except String (List (Document × Int))
  generate : String → List Turn → String → Except String String

/-- Modelled from the spec: the inner `rag_chain` of
`RAGChainBuilder.build_chain` (langchain's `create_retrieval_chain`, external)
run on a given history snapshot: reformulate the input into a standalone
query, retrieve the top-k documents, assemble the context, and generate the
answer; a failure at any stage propagates. -/
def runPipeline (p : Pipeline) (hist : List Turn) (user_input : String) :
    Except String String :=
  match reformulate p.llm hist user_input with
  | Except.error e => Except.error e
  | Except.ok q =>
    match p.search q with
    | Except.error e => Except.error e
    | Except.ok scored =>
      p.generate (assemble ((retrieve scored).map Prod.fst)) hist user_input

/-- Modelled from the spec: one request through the chain returned by
`RAGChainBuilder.build_chain` (`RunnableWithMessageHistory` is external).
Load (or lazily create) the session's history, run the inner pipeline on it,
and only on success append the (input, answer) turn to the session; a failure
at any stage propagates and performs no append. -/
def handle_message (p : Pipeline) (st : Store) (session_key user_input : String) :
    Store × Except String String :=
  match RAGChainBuilder.get_history st session_key with
  | (st1, r) =>
    match runPipeline p (readRef st1 r) user_input with
    | Except.error e => (st1, Except.error e)
    | Except.ok ans =>
      (writeRef st1 r (readRef st1 r ++ [Turn.mk user_input ans]), Except.ok ans)

/-- A sequence of `handle_message` calls against one session key, issued and
completed strictly one at a time, threading the store. -/
def runCalls (p : Pipeline) (key : String) :
    Store → List String → Store × List (Except String String)
  | st, [] => (st, [])
  | st, input :: rest =>
    let r1 := handle_message p st key input
    let r2 := runCalls p key r1.1 rest
    (r2.1, r1.2 :: r2.2)

/-- Embedding of `get_response` in src/app.py (lines 57-64): every request
invokes the chain with the fixed literal session id `"user-session"` and the
user's message. -/
def get_response (p : Pipeline) (st : Store) (msg : String) :
    Store × Except String String :=
  handle_message p st "user-session" msg

/-- A concrete review document, as produced from the sample review row. -/
def exampleDoc : Document :=
  { page_content := "Amazing phone with great camera quality and battery life."
    metadata := [("product_name", "iPhone 13 Pro Max"), ("source", "flipkart_reviews")] }

/-- Concrete CSV rows exercising the converter: one good row, one
whitespace-only review, one row with a null product title. -/
def exampleRows : List CsvRow :=
  [{ product_title := some "iPhone 13 Pro Max"
     review := some "Amazing phone with great camera quality and battery life." },
   { product_title := some "Cheap phone", review := some "   bad  " },
   { product_title := none, review := some "Review with a missing product title here." }]

/-- A concrete scored index for exercising the retriever adapter. -/
def exampleScored : List (Document × Int) :=
  [(exampleDoc, 3), ({ page_content := "Bad phone, returned it.", metadata := [] }, 7)]

/-- A pipeline whose external services all succeed. -/
def examplePipeline : Pipeline :=
  { llm := fun _ i => Except.ok i
    search := fun _ => Except.ok [(exampleDoc, 9)]
    generate := fun _ _ _ =>
      Except.ok "The iPhone 13 Pro Max has an amazing camera per reviews." }

/-- A pipeline whose generator call fails. -/
def failingPipeline : Pipeline :=
  { llm := fun _ i => Except.ok i
    search := fun _ => Except.ok [(exampleDoc, 9)]
    generate := fun _ _ _ => Except.error "model service unavailable" }

/-- The history store of a freshly constructed `RAGChainBuilder`: no sessions
(`self.history_store = \x7b\x7d`). -/
def emptyStore : Store := { keyToRef := [], heap := [] }

/-- A configuration with the endpoint variable unset. -/
def exampleConfigMissing : ConfigEnv :=
  { astra_db_api_endpoint := none
    astra_db_application_token := some "token"
    astra_db_keyspace := some "keyspace" }

/-- A concrete document list for exercising the ingestion batching loop. -/
def exampleDocs : List Document := [exampleDoc, exampleDoc]

/-! Helper lemmas about association-list lookup and the session store. -/

theorem emptyStore_WF : WFStore emptyStore :=
  ⟨fun k r h => by simp [lookupKey, emptyStore] at h,
   fun k₁ k₂ r₁ r₂ h₁ h₂ _ => by simp [lookupKey, emptyStore] at h₁⟩

theorem lookupKey_append_left (l₁ l₂ : List (String × Nat)) (k : String) (v : Nat)
    (h : lookupKey l₁ k = some v) : lookupKey (l₁ ++ l₂) k = some v := by
  induction l₁ with
  | nil => simp [lookupKey] at h
  | cons p rest ih =>
    obtain ⟨k', v'⟩ := p
    by_cases hk : k = k' <;> simp_all [lookupKey]

theorem lookupKey_append_right (l₁ l₂ : List (String × Nat)) (k : String)
    (h : lookupKey l₁ k = none) : lookupKey (l₁ ++ l₂) k = lookupKey l₂ k := by
  induction l₁ with
  | nil => simp
  | cons p rest ih =>
    obtain ⟨k', v'⟩ := p
    by_cases hk : k = k' <;> simp_all [lookupKey]

theorem lookupKey_singleton (sid k : String) (n : Nat) :
    lookupKey [(sid, n)] k = if k = sid then some n else none := by
  simp [lookupKey]

theorem getD_append_lt {α : Type} (l₁ l₂ : List α) (d : α) (r : Nat)
    (h : r < l₁.length) : (l₁ ++ l₂).getD r d = l₁.getD r d := by
  simp [List.getD_eq_getElem?_getD, List.getElem?_append, h]

theorem getD_append_self {α : Type} (l : List α) (a d : α) :
    (l ++ [a]).getD l.length d = a := by
  simp [List.getD_eq_getElem?_getD, List.getElem?_append]

theorem readRef_writeRef_self (st : Store) (r : Nat) (ts : List Turn)
    (h : r < st.heap.length) : readRef (writeRef st r ts) r = ts := by
  simp [readRef, writeRef, List.getD_eq_getElem?_getD, List.getElem?_set_self, h]

theorem readRef_writeRef_ne (st : Store) (r r' : Nat) (ts : List Turn)
    (h : r ≠ r') : readRef (writeRef st r ts) r' = readRef st r' := by
  simp [readRef, writeRef, List.getD_eq_getElem?_getD, List.getElem?_set_ne h]

theorem get_history_lookup_self (st : Store) (sid : String) :
    lookupKey (RAGChainBuilder.get_history st sid).1.keyToRef sid =
      some (RAGChainBuilder.get_history st sid).2 := by
  cases hl : lookupKey st.keyToRef sid with
  | some r => simp [RAGChainBuilder.get_history, hl]
  | none =>
    simp only [RAGChainBuilder.get_history, hl]
    rw [lookupKey_append_right _ _ _ hl, lookupKey_singleton]
    simp

theorem get_history_lookup_ne (st : Store) (sid k : String) (hk : k ≠ sid) :
    lookupKey (RAGChainBuilder.get_history st sid).1.keyToRef k =
      lookupKey st.keyToRef k := by
  cases hl : lookupKey st.keyToRef sid with
  | some r => simp [RAGChainBuilder.get_history, hl]
  | none =>
    simp only [RAGChainBuilder.get_history, hl]
    cases hc : lookupKey st.keyToRef k with
    | some v => exact lookupKey_append_left _ _ _ _ hc
    | none =>
      rw [lookupKey_append_right _ _ _ hc, lookupKey_singleton]
      simp [hk]

theorem lookupKey_append_single_cases (l : List (String × Nat)) (sid k : String)
    (n r : Nat) (h : lookupKey (l ++ [(sid, n)]) k = some r) :
    lookupKey l k = some r ∨ (lookupKey l k = none ∧ k = sid ∧ r = n) := by
  cases hc : lookupKey l k with
  | some v =>
    rw [lookupKey_append_left _ _ _ _ hc] at h
    exact Or.inl h
  | none =>
    rw [lookupKey_append_right _ _ _ hc, lookupKey_singleton] at h
    by_cases hk : k = sid
    · simp only [hk, if_pos rfl] at h
      injection h with h
      exact Or.inr ⟨rfl, hk, h.symm⟩
    · simp [hk] at h

theorem get_history_WF (st : Store) (sid : String) (hw : WFStore st) :
    WFStore (RAGChainBuilder.get_history st sid).1 := by
  obtain ⟨hlt, hinj⟩ := hw
  cases hl : lookupKey st.keyToRef sid with
  | some r => simpa [RAGChainBuilder.get_history, hl] using ⟨hlt, hinj⟩
  | none =>
    simp only [RAGChainBuilder.get_history, hl]
    constructor
    · intro k r h
      simp only [List.length_append, List.length_cons, List.length_nil]
      rcases lookupKey_append_single_cases _ _ _ _ _ h with hc | ⟨-, -, hr⟩
      · exact Nat.lt_succ_of_lt (hlt k r hc)
      · omega
    · intro k₁ k₂ r₁ r₂ h₁ h₂ hr
      rcases lookupKey_append_single_cases _ _ _ _ _ h₁ with hc₁ | ⟨-, hk₁, hr₁⟩ <;>
        rcases lookupKey_append_single_cases _ _ _ _ _ h₂ with hc₂ | ⟨-, hk₂, hr₂⟩
      · exact hinj k₁ k₂ r₁ r₂ hc₁ hc₂ hr
      · exact absurd (hr ▸ hr₂ ▸ hlt k₁ r₁ hc₁) (Nat.lt_irrefl _)
      · exact absurd (hr ▸ hr₁ ▸ hlt k₂ r₂ hc₂) (Nat.lt_irrefl _)
      · exact hk₁.trans hk₂.symm

theorem writeRef_WF (st : Store) (r : Nat) (ts : List Turn) (hw : WFStore st) :
    WFStore (writeRef st r ts) := by
  obtain ⟨hlt, hinj⟩ := hw
  exact ⟨fun k r' h => by simpa [writeRef] using hlt k r' h,
    fun k₁ k₂ r₁ r₂ h₁ h₂ hr => hinj k₁ k₂ r₁ r₂ h₁ h₂ hr⟩

theorem get_history_ref_lt (st : Store) (sid : String) (hw : WFStore st) :
    (RAGChainBuilder.get_history st sid).2 <
      (RAGChainBuilder.get_history st sid).1.heap.length := by
  have := get_history_WF st sid hw
  exact this.1 sid _ (get_history_lookup_self st sid)

theorem sessionTurns_get_history (st : Store) (sid : String) (hw : WFStore st)
    (k : String) :
    sessionTurns (RAGChainBuilder.get_history st sid).1 k = sessionTurns st k := by
  cases hl : lookupKey st.keyToRef sid with
  | some r => simp [RAGChainBuilder.get_history, hl]
  | none =>
    by_cases hk : k = sid
    · subst hk
      simp only [sessionTurns, get_history_lookup_self st k, hl]
      simp only [RAGChainBuilder.get_history, hl, readRef]
      exact getD_append_self _ _ _
    · have hne := get_history_lookup_ne st sid k hk
      simp only [sessionTurns, hne]
      cases hc : lookupKey st.keyToRef k with
      | none => rfl
      | some r' =>
        simp only [RAGChainBuilder.get_history, hl, readRef]
        exact getD_append_lt _ _ _ _ (hw.1 k r' hc)

theorem readRef_get_history (st : Store) (key : String) (hw : WFStore st) :
    readRef (RAGChainBuilder.get_history st key).1
      (RAGChainBuilder.get_history st key).2 = sessionTurns st key := by
  rw [← sessionTurns_get_history st key hw key]
  simp only [sessionTurns, get_history_lookup_self]

theorem sessionTurns_writeRef_other (st : Store) (r : Nat) (ts : List Turn)
    (k : String) (h : ∀ r', lookupKey st.keyToRef k = some r' → r' ≠ r) :
    sessionTurns (writeRef st r ts) k = sessionTurns st k := by
  simp only [sessionTurns, writeRef]
  cases hc : lookupKey st.keyToRef k with
  | none => rfl
  | some r' => exact readRef_writeRef_ne st r r' ts (Ne.symm (h r' hc))

theorem sessionTurns_write_after_get (st : Store) (key : String) (ts : List Turn)
    (hw : WFStore st) :
    sessionTurns (writeRef (RAGChainBuilder.get_history st key).1
      (RAGChainBuilder.get_history st key).2 ts) key = ts := by
  simp only [sessionTurns, writeRef, get_history_lookup_self]
  exact readRef_writeRef_self _ _ _ (get_history_ref_lt st key hw)

theorem handle_message_eq (p : Pipeline) (st : Store) (key input : String) :
    handle_message p st key input =
      match runPipeline p (readRef (RAGChainBuilder.get_history st key).1
          (RAGChainBuilder.get_history st key).2) input with
      | Except.error e => ((RAGChainBuilder.get_history st key).1, Except.error e)
      | Except.ok ans =>
        (writeRef (RAGChainBuilder.get_history st key).1
            (RAGChainBuilder.get_history st key).2
            (readRef (RAGChainBuilder.get_history st key).1
              (RAGChainBuilder.get_history st key).2 ++ [Turn.mk input ans]),
          Except.ok ans) := rfl

theorem handle_message_error_store (p : Pipeline) (st : Store) (key input e : String)
    (h : (handle_message p st key input).2 = Except.error e) :
    (handle_message p st key input).1 = (RAGChainBuilder.get_history st key).1 := by
  rw [handle_message_eq] at h ⊢
  cases hr : runPipeline p (readRef (RAGChainBuilder.get_history st key).1
      (RAGChainBuilder.get_history st key).2) input <;> simp [hr] at h ⊢

theorem handle_message_ok_store (p : Pipeline) (st : Store) (key input ans : String)
    (h : (handle_message p st key input).2 = Except.ok ans) :
    (handle_message p st key input).1 =
      writeRef (RAGChainBuilder.get_history st key).1
        (RAGChainBuilder.get_history st key).2
        (readRef (RAGChainBuilder.get_history st key).1
          (RAGChainBuilder.get_history st key).2 ++ [Turn.mk input ans]) := by
  rw [handle_message_eq] at h ⊢
  cases hr : runPipeline p (readRef (RAGChainBuilder.get_history st key).1
      (RAGChainBuilder.get_history st key).2) input <;> simp [hr] at h ⊢
  rw [h]

theorem handle_message_WF (p : Pipeline) (st : Store) (key input : String)
    (hw : WFStore st) : WFStore (handle_message p st key input).1 := by
  rw [handle_message_eq]
  cases hr : runPipeline p (readRef (RAGChainBuilder.get_history st key).1
      (RAGChainBuilder.get_history st key).2) input with
  | error e => exact get_history_WF st key hw
  | ok ans => exact writeRef_WF _ _ _ (get_history_WF st key hw)

theorem sessionTurns_handle_message_error (p : Pipeline) (st : Store)
    (key input e : String) (hw : WFStore st)
    (h : (handle_message p st key input).2 = Except.error e) (k : String) :
    sessionTurns (handle_message p st key input).1 k = sessionTurns st k := by
  rw [handle_message_error_store p st key input e h]
  exact sessionTurns_get_history st key hw k

theorem sessionTurns_handle_message_ok (p : Pipeline) (st : Store)
    (key input ans : String) (hw : WFStore st)
    (h : (handle_message p st key input).2 = Except.ok ans) :
    sessionTurns (handle_message p st key input).1 key =
      sessionTurns st key ++ [Turn.mk input ans] := by
  rw [handle_message_ok_store p st key input ans h,
    sessionTurns_write_after_get st key _ hw, readRef_get_history st key hw]

theorem sessionTurns_handle_message_ne (p : Pipeline) (st : Store)
    (key input : String) (hw : WFStore st) (k : String) (hk : k ≠ key) :
    sessionTurns (handle_message p st key input).1 k = sessionTurns st k := by
  rw [handle_message_eq]
  cases hr : runPipeline p (readRef (RAGChainBuilder.get_history st key).1
      (RAGChainBuilder.get_history st key).2) input with
  | error e => exact sessionTurns_get_history st key hw k
  | ok ans =>
    have hw1 := get_history_WF st key hw
    rw [sessionTurns_writeRef_other _ _ _ k ?_]
    · exact sessionTurns_get_history st key hw k
    · intro r' hc' he
      exact hk (hw1.2 k key r' _ hc' (get_history_lookup_self st key) he)

theorem pyStrip_not_whitespace_only (s : String) (h : pyStrip s ≠ "") :
    ((pyStrip s).toList.all Char.isWhitespace) = false := by
  have hne : (s.toList.dropWhile Char.isWhitespace).reverse.dropWhile
      Char.isWhitespace ≠ [] := by
    intro hnil
    apply h
    simp only [pyStrip, hnil]
    rfl
  have hhead := List.head_dropWhile_not Char.isWhitespace
    (s.toList.dropWhile Char.isWhitespace).reverse hne
  have hmem : ((s.toList.dropWhile Char.isWhitespace).reverse.dropWhile
      Char.isWhitespace).head hne ∈
      ((s.toList.dropWhile Char.isWhitespace).reverse.dropWhile
        Char.isWhitespace).reverse :=
    List.mem_reverse.mpr (List.head_mem hne)
  show (((s.toList.dropWhile Char.isWhitespace).reverse.dropWhile
    Char.isWhitespace).reverse.all Char.isWhitespace) = false
  rw [List.all_eq_false]
  refine ⟨((s.toList.dropWhile Char.isWhitespace).reverse.dropWhile
    Char.isWhitespace).head hne, hmem, ?_⟩
  simp only [Bool.not_eq_true]
  exact hhead

/-! Theorems settling the claims. -/

/-- C6: every Document produced by `DataConverter.convert` has non-empty,
non-whitespace-only review content whose length (it is stored stripped)
strictly exceeds 10 characters, carries `product_name` and `source`
provenance metadata, and originates from a CSV row with non-null cells whose
stripped review passes the length filter; rows failing the filter yield no
document. -/
theorem converted_documents_quality (rows : List CsvRow) (d : Document)
    (hd : d ∈ DataConverter.convert rows) :
    10 < d.page_content.length ∧
    d.page_content ≠ "" ∧
    (d.page_content.toList.all Char.isWhitespace) = false ∧
    ("source", "flipkart_reviews") ∈ d.metadata ∧
    ∃ row ∈ rows, ∃ t v, row.product_title = some t ∧ row.review = some v ∧
      10 < (pyStrip v).length ∧ d.page_content = pyStrip v ∧
      d.metadata = [("product_name", pyStrip t), ("source", "flipkart_reviews")] := by
  simp only [DataConverter.convert, List.mem_map, List.mem_filter, dropna,
    List.mem_filterMap, decide_eq_true_eq] at hd
  obtain ⟨⟨t, v⟩, ⟨⟨⟨row, hrow, hmatch⟩, hne⟩, hlen⟩, hdoc⟩ := hd
  dsimp only at hne hlen hdoc
  rcases hrt : row.product_title with - | t'
  · rw [hrt] at hmatch; simp at hmatch
  rcases hrv : row.review with - | v'
  · rw [hrt, hrv] at hmatch; simp at hmatch
  rw [hrt, hrv] at hmatch
  simp only [Option.some.injEq, Prod.mk.injEq] at hmatch
  obtain ⟨ht, hv⟩ := hmatch
  subst hdoc
  subst ht
  subst hv
  exact ⟨hlen, hne, pyStrip_not_whitespace_only _ hne, by simp,
    row, hrow, _, _, hrt, hrv, hlen, rfl, rfl⟩

/-- C7: with an empty history the reformulation step cannot fail and the
standalone retrieval query is exactly the raw user input, whatever the
reformulation model would do. -/
theorem reformulate_empty_history
    (llm : List Turn → String → Except String String) (user_input : String) :
    reformulate llm [] user_input = Except.ok user_input := rfl

/-- C2: the retriever's k is the constant 5 fixed at chain construction and
not a per-call parameter; retrieval returns exactly `min 5 (number of indexed
documents)` results, ranked by relevance score descending, all drawn from the
index. -/
theorem retrieve_top5 (scored : List (Document × Int)) :
    retrieverK = 5 ∧
    (retrieve scored).length = min 5 scored.length ∧
    List.Sorted (fun a b : Document × Int => b.2 ≤ a.2) (retrieve scored) ∧
    ∀ x, x ∈ retrieve scored → x ∈ scored := by
  refine ⟨rfl, ?_, ?_, ?_⟩
  · simp [retrieve, retrieverK, List.length_take, List.length_insertionSort]
  · have hs : List.Sorted (fun a b : Document × Int => b.2 ≤ a.2)
        (scored.insertionSort fun a b => b.2 ≤ a.2) := by
      letI : IsTotal (Document × Int) (fun a b => b.2 ≤ a.2) :=
        ⟨fun a b => le_total b.2 a.2⟩
      letI : IsTrans (Document × Int) (fun a b => b.2 ≤ a.2) :=
        ⟨fun a b c hab hbc => le_trans hbc hab⟩
      exact List.sorted_insertionSort _ _
    exact List.Pairwise.sublist (List.take_sublist retrieverK _) hs
  · intro x hx
    exact (List.perm_insertionSort _ scored).mem_iff.mp
      (List.take_subset _ _ hx)

/-- C8: configuration validation at construction of `DataIngestor` succeeds
exactly when every required variable is present, membership of each required
variable's name in the missing list tracks its absence, and when anything is
missing a `ValueError` is raised whose message names every missing variable. -/
theorem validate_config_spec (c : ConfigEnv) :
    ("ASTRA_DB_API_ENDPOINT" ∈ missingVars c ↔ c.astra_db_api_endpoint = none) ∧
    ("ASTRA_DB_APPLICATION_TOKEN" ∈ missingVars c ↔
      c.astra_db_application_token = none) ∧
    ("ASTRA_DB_KEYSPACE" ∈ missingVars c ↔ c.astra_db_keyspace = none) ∧
    (validateConfig c = Except.ok () ↔ missingVars c = []) ∧
    (missingVars c ≠ [] → validateConfig c = Except.error
      ("Missing required environment variables: "
        ++ String.intercalate ", " (missingVars c))) := by
  obtain ⟨e, t, k⟩ := c
  cases e <;> cases t <;> cases k <;>
    simp [missingVars, requiredVars, validateConfig]

theorem ingestLoop_eq_append (vstore docs : List Document) :
    ingestLoop vstore docs = vstore ++ docs := by
  induction vstore, docs using ingestLoop.induct with
  | case1 vstore => simp [ingestLoop]
  | case2 vstore docs h ih =>
    rw [ingestLoop, dif_neg h, ih, add_documents, List.append_assoc,
      List.take_append_drop]

theorem ingestChunks_flatten (docs : List Document) :
    (ingestChunks docs).flatten = docs := by
  induction docs using ingestChunks.induct with
  | case1 => simp [ingestChunks]
  | case2 docs h ih =>
    rw [ingestChunks, dif_neg h, List.flatten_cons, ih, List.take_append_drop]

theorem ingestChunks_le_batchSize (docs : List Document) :
    ∀ b ∈ ingestChunks docs, b.length ≤ 50 := by
  induction docs using ingestChunks.induct with
  | case1 =>
    intro b hb
    simp [ingestChunks] at hb
  | case2 docs h ih =>
    intro b hb
    rw [ingestChunks, dif_neg h] at hb
    rcases List.mem_cons.mp hb with hb1 | hb2
    · rw [hb1]
      simp only [batchSize] at *
      exact List.length_take_le 50 docs
    · exact ih b hb2

/-- C10: the batching loop of `DataIngestor.ingest` splits the converted
document list into consecutive batches of at most 50 documents whose
concatenation is the original list (each document passed exactly once, in
order), and running the loop changes the vector store exactly as one
`add_documents` call on the whole list would. -/
theorem ingest_batching_refines_single_add (vstore docs : List Document) :
    (ingestChunks docs).flatten = docs ∧
    (∀ b, b ∈ ingestChunks docs → b.length ≤ 50) ∧
    ingestLoop vstore docs = add_documents vstore docs :=
  ⟨ingestChunks_flatten docs, ingestChunks_le_batchSize docs,
    (ingestLoop_eq_append vstore docs).trans rfl⟩

/-- C3: `RAGChainBuilder._get_history` is idempotent — a second call with the
same session id returns the very same history reference and leaves the store
untouched; a first call on an unseen key creates the session; and a turn list
written through the returned reference is what every holder of the key then
reads. -/
theorem get_history_idempotent (st : Store) (sid : String) (hw : WFStore st) :
    (RAGChainBuilder.get_history (RAGChainBuilder.get_history st sid).1 sid).2 =
      (RAGChainBuilder.get_history st sid).2 ∧
    (RAGChainBuilder.get_history (RAGChainBuilder.get_history st sid).1 sid).1 =
      (RAGChainBuilder.get_history st sid).1 ∧
    (hasSession st sid = false →
      hasSession (RAGChainBuilder.get_history st sid).1 sid = true) ∧
    ∀ ts, sessionTurns (writeRef (RAGChainBuilder.get_history st sid).1
        (RAGChainBuilder.get_history st sid).2 ts) sid = ts := by
  refine ⟨?_, ?_, ?_, fun ts => sessionTurns_write_after_get st sid ts hw⟩
  · rw [show RAGChainBuilder.get_history (RAGChainBuilder.get_history st sid).1 sid =
      ((RAGChainBuilder.get_history st sid).1, (RAGChainBuilder.get_history st sid).2)
      from by rw [RAGChainBuilder.get_history, get_history_lookup_self]]
  · rw [show RAGChainBuilder.get_history (RAGChainBuilder.get_history st sid).1 sid =
      ((RAGChainBuilder.get_history st sid).1, (RAGChainBuilder.get_history st sid).2)
      from by rw [RAGChainBuilder.get_history, get_history_lookup_self]]
  · intro hno
    simp only [hasSession, get_history_lookup_self, Option.isSome_some]

/-- C4: appending a turn to one session's history never mutates, and is never
visible in, the turn sequence of a session with a different key. -/
theorem session_isolation (st : Store) (hw : WFStore st) (k₁ k₂ : String)
    (hne : k₁ ≠ k₂) (t : Turn) :
    sessionTurns (appendTurn st k₁ t) k₂ = sessionTurns st k₂ := by
  rw [appendTurn, sessionTurns_writeRef_other _ _ _ k₂ ?_]
  · exact sessionTurns_get_history st k₁ hw k₂
  · intro r' hc' he
    exact hne ((get_history_WF st k₁ hw).2 k₂ k₁ r' _ hc'
      (get_history_lookup_self st k₁) he).symm

/-- C1: when any stage of the pipeline fails (in particular the generator),
the failed `handle_message` call leaves every session's turn sequence exactly
as it was before the call — no partial history is recorded. -/
theorem no_partial_history_on_failure (p : Pipeline) (st : Store)
    (key input e : String) (hw : WFStore st)
    (h : (handle_message p st key input).2 = Except.error e) (k : String) :
    sessionTurns (handle_message p st key input).1 k = sessionTurns st k :=
  sessionTurns_handle_message_error p st key input e hw h k

/-- C5: a strictly sequential run of `handle_message` calls on one session
key, all of which succeed, extends the session's turn sequence by exactly one
(input, answer) turn per call, in call order; on an initially empty session
the resulting turn sequence is exactly the call sequence. -/
theorem history_ordering (p : Pipeline) (st : Store) (key : String)
    (inputs answers : List String) (hw : WFStore st)
    (h : (runCalls p key st inputs).2 = answers.map Except.ok) :
    sessionTurns (runCalls p key st inputs).1 key =
      sessionTurns st key ++ List.zipWith Turn.mk inputs answers := by
  induction inputs generalizing st answers with
  | nil =>
    cases answers with
    | nil => simp [runCalls]
    | cons a as => simp [runCalls] at h
  | cons i rest ih =>
    cases answers with
    | nil => simp [runCalls] at h
    | cons a as =>
      simp only [runCalls, List.map_cons, List.cons.injEq] at h
      obtain ⟨h1, h2⟩ := h
      have hw1 := handle_message_WF p st key i hw
      simp only [runCalls]
      calc sessionTurns (runCalls p key (handle_message p st key i).1 rest).1 key
          = sessionTurns (handle_message p st key i).1 key
              ++ List.zipWith Turn.mk rest as := ih _ _ hw1 h2
        _ = (sessionTurns st key ++ [Turn.mk i a])
              ++ List.zipWith Turn.mk rest as := by
            rw [sessionTurns_handle_message_ok p st key i a hw h1]
        _ = sessionTurns st key ++ List.zipWith Turn.mk (i :: rest) (a :: as) := by
            rw [List.zipWith_cons_cons, List.append_assoc]
            rfl

/-- C9: the reference deployment's chat endpoint hands every request to the
chain under the one fixed session key `"user-session"`, so no session with any
other key is ever touched — all conversations share a single session. -/
theorem get_response_fixed_session (p : Pipeline) (st : Store) (msg : String)
    (hw : WFStore st) :
    get_response p st msg = handle_message p st "user-session" msg ∧
    ∀ k, k ≠ "user-session" →
      sessionTurns (get_response p st msg).1 k = sessionTurns st k :=
  ⟨rfl, fun k hk =>
    sessionTurns_handle_message_ne p st "user-session" msg hw k hk⟩

/-! Concrete witnesses instantiating the claim theorems. -/

/-- Witness for C6 at a concrete row set. -/
theorem converted_documents_quality_witness :
    10 < exampleDoc.page_content.length ∧
    ("source", "flipkart_reviews") ∈ exampleDoc.metadata :=
  ⟨(converted_documents_quality exampleRows exampleDoc (by decide)).1,
   (converted_documents_quality exampleRows exampleDoc (by decide)).2.2.2.1⟩

/-- Witness for C2 at a concrete scored index. -/
theorem retrieve_top5_witness :
    ((exampleDoc, 3) : Document × Int) ∈ exampleScored ∧
    (retrieve exampleScored).length = min 5 exampleScored.length :=
  ⟨(retrieve_top5 exampleScored).2.2.2 (exampleDoc, 3) (by decide),
   (retrieve_top5 exampleScored).2.1⟩

/-- Witness for C8 at a configuration with a missing endpoint. -/
theorem validate_config_spec_witness :
    validateConfig exampleConfigMissing = Except.error
      ("Missing required environment variables: "
        ++ String.intercalate ", " (missingVars exampleConfigMissing)) :=
  (validate_config_spec exampleConfigMissing).2.2.2.2 (by decide)

/-- Witness for C10 at a concrete document list. -/
theorem ingest_batching_witness :
    (List.take batchSize exampleDocs).length ≤ 50 ∧
    ingestLoop [] exampleDocs = add_documents [] exampleDocs :=
  ⟨(ingest_batching_refines_single_add [] exampleDocs).2.1 _
      (by rw [ingestChunks, dif_neg (by decide : ¬(exampleDocs = []))]
          exact List.mem_cons_self _ _),
   (ingest_batching_refines_single_add [] exampleDocs).2.2⟩

/-- Witness for C3: on the empty store, the first call creates the session. -/
theorem get_history_idempotent_witness :
    hasSession (RAGChainBuilder.get_history emptyStore "s1").1 "s1" = true :=
  (get_history_idempotent emptyStore "s1" emptyStore_WF).2.2.1 (by decide)

/-- Witness for C4 at two concrete distinct keys. -/
theorem session_isolation_witness :
    sessionTurns (appendTurn emptyStore "s1" (Turn.mk "hi" "hello")) "s2" =
      sessionTurns emptyStore "s2" :=
  session_isolation emptyStore emptyStore_WF "s1" "s2" (by decide)
    (Turn.mk "hi" "hello")

/-- Witness for C1: a failed generator call leaves the session unchanged. -/
theorem no_partial_history_on_failure_witness :
    sessionTurns (handle_message failingPipeline emptyStore "s1"
        "Tell me about iPhone 13 camera").1 "s1" =
      sessionTurns emptyStore "s1" :=
  no_partial_history_on_failure failingPipeline emptyStore "s1"
    "Tell me about iPhone 13 camera" "model service unavailable"
    emptyStore_WF rfl "s1"

/-- Witness for C5: one successful call on an initially empty session yields
exactly that one (input, answer) turn. -/
theorem history_ordering_witness :
    sessionTurns (runCalls examplePipeline "s1" emptyStore
        ["Tell me about iPhone 13 camera"]).1 "s1" =
      sessionTurns emptyStore "s1" ++ List.zipWith Turn.mk
        ["Tell me about iPhone 13 camera"]
        ["The iPhone 13 Pro Max has an amazing camera per reviews."] :=
  history_ordering examplePipeline emptyStore "s1"
    ["Tell me about iPhone 13 camera"]
    ["The iPhone 13 Pro Max has an amazing camera per reviews."]
    emptyStore_WF rfl

/-- Witness for C9: a request leaves any other session key untouched. -/
theorem get_response_fixed_session_witness :
    sessionTurns (get_response examplePipeline emptyStore "hello").1 "other" =
      sessionTurns emptyStore "other" :=
  (get_response_fixed_session examplePipeline emptyStore "hello"
    emptyStore_WF).2 "other" (by decide)
